import Mathlib

/-
Verification development for the kitn registry template.

The repository contains three scripts operating over a corpus of component
manifests:
  * `scripts/validate-registry.ts` — re-derives the installed path of every
    declared component file, extracts import specifiers from source text and
    reports unresolved or miscategorized references;
  * `scripts/build-registry.ts` — bundles each component into a registry item
    JSON document, writes a "latest" file and an immutable version-stamped
    file, and reconstructs per-component version lists;
  * `src/schema.ts` — zod schemas for registry items, indexes and installed
    component records.

This file gives a shallow embedding of those parts and proves properties
about them.  TypeScript `Map`s and plain objects are modelled as association
lists with first-match lookup and set-in-place update; the file system is
modelled as association lists from paths to entries; JSON string contents are
abstracted behind a type parameter together with the pure extraction
functions applied to them (the validator's regex-based import extraction is
modelled as a function from source content to the list of extracted
specifiers, which is how the validator consumes it).  String manipulation is
re-implemented over `List Char` so that every definition evaluates inside the
kernel.
-/

namespace RegistryTemplate

/-! ### Association-list maps (model of JS `Map` / plain record objects) -/

/-- `Map.get` / record indexing: first binding for a key, if any. -/
def mapGet {β : Type} : List (String × β) → String → Option β
  | [], _ => none
  | (k, v) :: rest, key => if k = key then some v else mapGet rest key

/-- `Map.set`: replace the first binding in place, or append a new one. -/
def mapSet {β : Type} : List (String × β) → String → β → List (String × β)
  | [], k, v => [(k, v)]
  | (k', v') :: rest, k, v =>
    if k' = k then (k, v) :: rest else (k', v') :: mapSet rest k v

/-! ### String helpers (kernel-evaluable re-implementations) -/

/-- Split a character list at every occurrence of `sep`. -/
def splitChars (sep : Char) : List Char → List (List Char)
  | [] => [[]]
  | c :: rest =>
    let r := splitChars sep rest
    if c = sep then [] :: r
    else
      match r with
      | [] => [[c]]
      | g :: gs => (c :: g) :: gs

/-- `s.split(sep)` for a single-character separator. -/
def strSplit (s : String) (sep : Char) : List String :=
  (splitChars sep s.toList).map String.mk

/-- Whether `p` occurs at the start of `l` (character-list version). -/
def listStarts : List Char → List Char → Bool
  | _, [] => true
  | [], _ :: _ => false
  | a :: as, b :: bs => a = b && listStarts as bs

/-- `s.startsWith(p)`. -/
def strStarts (s p : String) : Bool :=
  listStarts s.toList p.toList

/-- `s.endsWith(p)`. -/
def strEnds (s p : String) : Bool :=
  listStarts s.toList.reverse p.toList.reverse

/-- `s.slice(n)` (drop the first `n` characters). -/
def strDrop (s : String) (n : Nat) : String :=
  String.mk (s.toList.drop n)

/-- `s.slice(0, -n)` (drop the last `n` characters). -/
def strDropRight (s : String) (n : Nat) : String :=
  String.mk (s.toList.take (s.toList.length - n))

/-- `s.length` in characters. -/
def strLen (s : String) : Nat := s.toList.length

/-- `path.split("/").pop()`: the last `/`-separated segment. -/
def lastSegment (p : String) : String :=
  (strSplit p '/').getLastD ""

/-- Node's `path.dirname` for the plain (no leading/trailing slash) paths the
scripts build: everything before the last `/`, or `"."` when there is no
separator. -/
def dirname (p : String) : String :=
  let parts := strSplit p '/'
  if parts.length ≤ 1 then "." else String.intercalate "/" parts.dropLast

/-- Index of the last `'.'` in a character list, if any. -/
def lastDotIdx (l : List Char) : Option Nat :=
  ((l.enum.filter (fun ic => ic.2 = '.')).getLast?).map Prod.fst

/-- Node's `path.extname`: the suffix of the basename starting at its last
`'.'`, unless that dot is the basename's first character. -/
def extname (p : String) : String :=
  let base := (lastSegment p).toList
  match lastDotIdx base with
  | some i => if i = 0 then "" else String.mk (base.drop i)
  | none => ""

/-- The `.js` → `.ts` extension normalization both scripts apply:
`if (x.endsWith(".js")) x = x.slice(0, -3) + ".ts"`. -/
def jsToTs (s : String) : String :=
  if strEnds s ".js" then strDropRight s 3 ++ ".ts" else s

/-- Path-segment normalization performed by `path.resolve("/", ...)`: empty
and `"."` segments vanish, `".."` pops the previous segment (and is dropped
at the root). -/
def resolveSegs (segs : List String) : List String :=
  segs.foldl
    (fun acc seg =>
      if seg = "" ∨ seg = "." then acc
      else if seg = ".." then acc.dropLast
      else acc ++ [seg])
    []

namespace ValidateRegistry

/-- The validator's `typeToDir` record: manifest type string → installed
directory name. -/
def typeToDir : List (String × String) :=
  [("kitn:agent", "agents"), ("kitn:tool", "tools"),
   ("kitn:skill", "skills"), ("kitn:storage", "storage")]

/-- `knownAliasTypes = new Set(Object.values(typeToDir))`. -/
def knownAliasTypes : List String := ["agents", "tools", "skills", "storage"]

/-- `resolveImportToFile`: resolve a relative import specifier against the
directory of the referencing file's installed path (via
`resolve("/", fromDir, importPath)` with the leading slash stripped), then
normalize a trailing `.js` extension to `.ts`. -/
def resolveImportToFile (importPath fromFileInstalledPath : String) : String :=
  let fromDir := dirname fromFileInstalledPath
  let resolved :=
    String.intercalate "/" (resolveSegs (strSplit fromDir '/' ++ strSplit importPath '/'))
  jsToTs resolved

/-- An extracted `@kitn/<type>/<path>` alias import (the extraction only
keeps specifiers whose `<type>` is a member of `knownAliasTypes`). -/
structure AliasImport where
  ty : String
  path : String
deriving DecidableEq

/-- A did-you-mean candidate attached to an unresolved relative import:
the candidate installed path, its owning component, and whether that
component is missing from the erroring component's `registryDependencies`. -/
structure Suggestion where
  candidatePath : String
  candidateName : String
  missingDep : Bool
deriving DecidableEq

/-- One validator error finding (each increments the `errors` counter once). -/
inductive Finding where
  | unresolvedAlias (component installedPath ty importedPath resolvedTarget : String)
  | policyViolation (component installedPath importPath : String)
  | unresolvedRelative (component installedPath importPath resolvedTarget : String)
      (suggestions : List Suggestion)
  | danglingDep (component dep : String)
deriving DecidableEq

/-- Components named by did-you-mean hints inside a finding's output. -/
def findingSuggestedComponents : Finding → List String
  | .unresolvedRelative _ _ _ _ suggs => suggs.map Suggestion.candidateName
  | _ => []

/-- The validator's view of a parsed `manifest.json` (`ComponentManifest`
interface); the type is an unchecked string at runtime. -/
structure ScanManifest where
  name : String
  mtype : String
  files : List String
  registryDependencies : Option (List String) := none
deriving DecidableEq

/-- Check of one `@kitn/<type>/<path>` alias import (validator phase 2,
first loop): resolve `<type>/<path>` with `.js`→`.ts` normalization and flag
the import when the target is not a key of the installed-layout map. -/
def checkAliasImport (installedFiles : List (String × String))
    (componentName installedPath : String) (imp : AliasImport) : List Finding :=
  let resolvedTarget := jsToTs (imp.ty ++ "/" ++ imp.path)
  if (mapGet installedFiles resolvedTarget).isSome then []
  else [.unresolvedAlias componentName installedPath imp.ty imp.path resolvedTarget]

/-- Check of one relative import (validator phase 2, second loop): a
cross-type relative import (resolved directory differs from the referencing
file's directory and names one of the four canonical type directories) is a
policy violation regardless of target existence; otherwise a target missing
from the installed-layout map is an unresolved reference carrying
did-you-mean suggestions for every registered path ending in the target's
final filename. -/
def checkRelativeImport (installedFiles : List (String × String))
    (manifests : List (String × ScanManifest))
    (componentName installedPath importPath : String) : List Finding :=
  let resolvedTarget := resolveImportToFile importPath installedPath
  let targetDir := dirname resolvedTarget
  let fromDir := dirname installedPath
  if targetDir ≠ fromDir ∧ targetDir ∈ knownAliasTypes then
    [.policyViolation componentName installedPath importPath]
  else if (mapGet installedFiles resolvedTarget).isSome then []
  else
    let fileName := lastSegment resolvedTarget
    let candidates := installedFiles.filter (fun pc => strEnds pc.1 fileName)
    let deps :=
      match mapGet manifests componentName with
      | some m => m.registryDependencies.getD []
      | none => []
    [.unresolvedRelative componentName installedPath importPath resolvedTarget
      (candidates.map (fun pc => ⟨pc.1, pc.2, !(deps.contains pc.2)⟩))]

/-- The three maps built by the validator's scan phase: installed path →
component name, component name → manifest, installed path → source content
(content abstracted behind `α`). -/
structure ScanState (α : Type) where
  installedFiles : List (String × String) := []
  manifests : List (String × ScanManifest) := []
  fileContents : List (String × α) := []
deriving DecidableEq

/-- Findings produced for a single entry of the installed-layout map
(validator phase 2 body): non-`.ts` files are skipped; otherwise the alias
imports and then the relative imports extracted from the file's source are
checked in order. -/
def fileFindings {α : Type} (eR : α → List String) (eA : α → List AliasImport)
    (st : ScanState α) (installedPath componentName : String) : List Finding :=
  if extname installedPath = ".ts" then
    match mapGet st.fileContents installedPath with
    | none => []
    | some src =>
      (eA src).flatMap (checkAliasImport st.installedFiles componentName installedPath)
        ++ (eR src).flatMap
            (checkRelativeImport st.installedFiles st.manifests componentName installedPath)
  else []

/-- Validator phase 2: iterate the installed-layout map. -/
def importFindings {α : Type} (eR : α → List String) (eA : α → List AliasImport)
    (st : ScanState α) : List Finding :=
  st.installedFiles.flatMap (fun pc => fileFindings eR eA st pc.1 pc.2)

/-- Validator phase 3: every `registryDependencies` entry naming an unknown
component is an error. -/
def depFindings (manifests : List (String × ScanManifest)) : List Finding :=
  manifests.flatMap (fun nm =>
    (nm.2.registryDependencies.getD []).filterMap (fun dep =>
      if (mapGet manifests dep).isNone then some (.danglingDep nm.1 dep) else none))

/-- All error findings of a validation run over a scanned corpus. -/
def validateFindings {α : Type} (eR : α → List String) (eA : α → List AliasImport)
    (st : ScanState α) : List Finding :=
  importFindings eR eA st ++ depFindings st.manifests

/-- The validator's process exit status: `process.exit(1)` when
`errors > 0`, otherwise the process ends normally with status 0. -/
def validateExitCode {α : Type} (eR : α → List String) (eA : α → List AliasImport)
    (st : ScanState α) : Nat :=
  if (validateFindings eR eA st).length > 0 then 1 else 0

/-- File-system state: directory listings and file contents (contents
abstracted behind `α`).  `readdir` and `readFile` are reads: they return the
state unchanged together with the result (or `none` for a rejection). -/
structure FS (α : Type) where
  dirs : List (String × List String)
  files : List (String × α)

/-- `fs/promises.readdir`. -/
def FS.readdirF {α : Type} (fs : FS α) (d : String) : FS α × Option (List String) :=
  (fs, mapGet fs.dirs d)

/-- `fs/promises.readFile`. -/
def FS.readFileF {α : Type} (fs : FS α) (p : String) : FS α × Option α :=
  (fs, mapGet fs.files p)

/-- Scan-phase inner loop over one component's declared files: record the
installed path, read the source (a read failure rejects the whole run —
there is no `try` around this `readFile`), and record the content. -/
def readComponentFiles {α : Type} (fs : FS α) (componentDir installDir cname : String) :
    List String → ScanState α → FS α × Option (ScanState α)
  | [], st => (fs, some st)
  | fileName :: rest, st =>
    let installedPath := installDir ++ "/" ++ fileName
    let st1 : ScanState α :=
      { st with installedFiles := mapSet st.installedFiles installedPath cname }
    match fs.readFileF (componentDir ++ "/" ++ fileName) with
    | (fs1, none) => (fs1, none)
    | (fs1, some src) =>
      readComponentFiles fs1 componentDir installDir cname rest
        { st1 with fileContents := mapSet st1.fileContents installedPath src }

/-- Scan-phase loop over the entries of one type directory: a missing
`manifest.json` is skipped (`try`/`catch continue`); an unparseable one
rejects the run (`JSON.parse` throws).  An unknown manifest type indexes
`typeToDir` to `undefined`, which the template literal renders as the
directory name `"undefined"`. -/
def scanEntries {α : Type} (parseManifest : α → Option ScanManifest) (fs : FS α)
    (dir : String) : List String → ScanState α → FS α × Option (ScanState α)
  | [], st => (fs, some st)
  | entry :: rest, st =>
    match fs.readFileF (dir ++ "/" ++ entry ++ "/" ++ "manifest.json") with
    | (fs1, none) => scanEntries parseManifest fs1 dir rest st
    | (fs1, some raw) =>
      match parseManifest raw with
      | none => (fs1, none)
      | some manifest =>
        let st1 : ScanState α :=
          { st with manifests := mapSet st.manifests manifest.name manifest }
        let installDir := (mapGet typeToDir manifest.mtype).getD "undefined"
        match readComponentFiles fs1 (dir ++ "/" ++ entry) installDir manifest.name
            manifest.files st1 with
        | (fs2, none) => (fs2, none)
        | (fs2, some st2) => scanEntries parseManifest fs2 dir rest st2

/-- Scan-phase outer loop over the four canonical type directories: an
unreadable directory is skipped (`try`/`catch continue`). -/
def scanTypeDirs {α : Type} (parseManifest : α → Option ScanManifest) (fs : FS α)
    (componentsDir : String) : List String → ScanState α → FS α × Option (ScanState α)
  | [], st => (fs, some st)
  | typeDir :: rest, st =>
    match fs.readdirF (componentsDir ++ "/" ++ typeDir) with
    | (fs1, none) => scanTypeDirs parseManifest fs1 componentsDir rest st
    | (fs1, some entries) =>
      match scanEntries parseManifest fs1 (componentsDir ++ "/" ++ typeDir) entries st with
      | (fs2, none) => (fs2, none)
      | (fs2, some st1) => scanTypeDirs parseManifest fs2 componentsDir rest st1

/-- The validator's `main`: scan all four type directories, then compute the
error findings and the exit status (`none` when the run was rejected by a
thrown error).  Threads the file-system state through every operation it
performs. -/
def runValidate {α : Type} (parseManifest : α → Option ScanManifest)
    (eR : α → List String) (eA : α → List AliasImport)
    (fs : FS α) (componentsDir : String) : FS α × Option Nat :=
  match scanTypeDirs parseManifest fs componentsDir
      ["agents", "tools", "skills", "storage"] {} with
  | (fs1, none) => (fs1, none)
  | (fs1, some st) => (fs1, some (validateExitCode eR eA st))

end ValidateRegistry

namespace Schema

/-- The `componentType` zod enum. -/
def componentTypes : List String :=
  ["kitn:agent", "kitn:tool", "kitn:skill", "kitn:storage"]

/-- The `changelogEntrySchema` `type` enum. -/
def changelogTypes : List String := ["feature", "fix", "breaking", "initial"]

/-- `registryFileSchema` value: `{ path, content, type }`, the `type` field
constrained to `componentType`. -/
structure RegistryFile where
  path : String
  content : String
  ftype : String
deriving DecidableEq

/-- `changelogEntrySchema` value: `{ version, date, type, note }`, the `type`
field constrained to `changelogTypes`. -/
structure ChangelogEntryJson where
  version : String
  date : String
  ctype : String
  note : String
deriving DecidableEq

/-- Input object handed to `registryItemSchema.parse`; the enum-constrained
fields are plain strings, `version` may be absent. -/
structure RegistryItemInput where
  schemaUrl : Option String := none
  name : String
  itype : String
  description : String
  dependencies : Option (List String) := none
  devDependencies : Option (List String) := none
  registryDependencies : Option (List String) := none
  envVars : Option (List (String × String)) := none
  files : List RegistryFile
  installDir : Option String := none
  tsconfig : Option (List (String × List String)) := none
  docs : Option String := none
  categories : Option (List String) := none
  version : Option String := none
  updatedAt : Option String := none
  changelog : Option (List ChangelogEntryJson) := none
deriving DecidableEq

/-- Parsed `RegistryItem`: same shape with the `version` default applied. -/
structure RegistryItem where
  schemaUrl : Option String := none
  name : String
  itype : String
  description : String
  dependencies : Option (List String) := none
  devDependencies : Option (List String) := none
  registryDependencies : Option (List String) := none
  envVars : Option (List (String × String)) := none
  files : List RegistryFile
  installDir : Option String := none
  tsconfig : Option (List (String × List String)) := none
  docs : Option String := none
  categories : Option (List String) := none
  version : String
  updatedAt : Option String := none
  changelog : Option (List ChangelogEntryJson) := none
deriving DecidableEq

/-- Validate a list of `registryFileSchema` values (raise on the first
invalid `type` enum value). -/
def parseRegistryFiles : List RegistryFile → Except String (List RegistryFile)
  | [] => .ok []
  | f :: rest =>
    if f.ftype ∈ componentTypes then
      match parseRegistryFiles rest with
      | .ok rs => .ok (f :: rs)
      | .error e => .error e
    else .error "invalid enum value for file type"

/-- Validate a list of `changelogEntrySchema` values. -/
def parseChangelogEntries : List ChangelogEntryJson → Except String (List ChangelogEntryJson)
  | [] => .ok []
  | c :: rest =>
    if c.ctype ∈ changelogTypes then
      match parseChangelogEntries rest with
      | .ok cs => .ok (c :: cs)
      | .error e => .error e
    else .error "invalid enum value for changelog type"

/-- The optional `changelog` field. -/
def parseChangelogOpt : Option (List ChangelogEntryJson) →
    Except String (Option (List ChangelogEntryJson))
  | none => .ok none
  | some cl =>
    match parseChangelogEntries cl with
    | .ok cs => .ok (some cs)
    | .error e => .error e

/-- `registryItemSchema.parse`: reject an unknown `type` enum value or an
invalid `files`/`changelog` entry, and default an absent `version` to
`"1.0.0"`. -/
def registryItemSchemaParse (i : RegistryItemInput) : Except String RegistryItem :=
  if i.itype ∈ componentTypes then
    match parseRegistryFiles i.files with
    | .error e => .error e
    | .ok fs =>
      match parseChangelogOpt i.changelog with
      | .error e => .error e
      | .ok cl =>
        .ok { schemaUrl := i.schemaUrl, name := i.name, itype := i.itype,
              description := i.description, dependencies := i.dependencies,
              devDependencies := i.devDependencies,
              registryDependencies := i.registryDependencies,
              envVars := i.envVars, files := fs, installDir := i.installDir,
              tsconfig := i.tsconfig, docs := i.docs,
              categories := i.categories, version := i.version.getD "1.0.0",
              updatedAt := i.updatedAt, changelog := cl }
  else .error "invalid enum value for type"

/-- `installedComponentSchema` value. -/
structure InstalledComponent where
  registry : Option String := none
  version : String
  installedAt : String
  files : List String
  hash : String
deriving DecidableEq

/-- A lock-file entry as the schema tests supply it: the
`installedComponentSchema` fields plus an extra `type` key that zod strips
as unknown. -/
structure LockEntryInput where
  registry : Option String := none
  ltype : Option String := none
  version : String
  installedAt : String
  files : List String
  hash : String
deriving DecidableEq

/-- `installedComponentSchema.parse` on a lock entry: keep the declared
fields, strip the unknown `type` key. -/
def installedComponentSchemaParse (e : LockEntryInput) : Except String InstalledComponent :=
  .ok { registry := e.registry, version := e.version, installedAt := e.installedAt,
        files := e.files, hash := e.hash }

/-- `z.record` parse: validate every value of the mapping. -/
def recordParse {α β : Type} (p : α → Except String β) :
    List (String × α) → Except String (List (String × β))
  | [] => .ok []
  | (k, v) :: rest =>
    match p v with
    | .error e => .error e
    | .ok b =>
      match recordParse p rest with
      | .error e => .error e
      | .ok bs => .ok ((k, b) :: bs)

/-- Modelled from the spec: `lockSchema` is imported by the schema tests
from the schema module, but its definition is not among the provided
sources.  Per the spec ("an empty lock/installed-state structure validates
as an empty mapping (no entries required)") and the lock-file tests, it
validates a record mapping component names to installed-component entries. -/
def lockSchemaParse (entries : List (String × LockEntryInput)) :
    Except String (List (String × InstalledComponent)) :=
  recordParse installedComponentSchemaParse entries

end Schema

namespace BuildRegistry

open Schema

/-- The `ComponentType` union of `src/schema.ts`, as the build script's
manifest interface types it. -/
inductive ComponentType where
  | agent
  | tool
  | skill
  | storage
deriving DecidableEq

/-- The literal string of a `ComponentType`. -/
def ComponentType.str : ComponentType → String
  | .agent => "kitn:agent"
  | .tool => "kitn:tool"
  | .skill => "kitn:skill"
  | .storage => "kitn:storage"

/-- The build script's `typeToDir` record. -/
def typeToDir : ComponentType → String
  | .agent => "agents"
  | .tool => "tools"
  | .skill => "skills"
  | .storage => "storage"

/-- A typed changelog entry (`ChangelogEntry` from `src/schema.ts`). -/
inductive ChangeType where
  | feature
  | fix
  | breaking
  | initial
deriving DecidableEq

/-- The literal string of a `ChangeType`. -/
def ChangeType.str : ChangeType → String
  | .feature => "feature"
  | .fix => "fix"
  | .breaking => "breaking"
  | .initial => "initial"

/-- `ChangelogEntry` as typed in `src/schema.ts`. -/
structure ChangelogEntry where
  version : String
  date : String
  ctype : ChangeType
  note : String
deriving DecidableEq

/-- Render a typed changelog entry as the JSON value handed to the schema. -/
def changelogToJson (c : ChangelogEntry) : ChangelogEntryJson :=
  ⟨c.version, c.date, c.ctype.str, c.note⟩

/-- The build script's `ComponentManifest` interface. -/
structure ComponentManifest where
  name : String
  mtype : ComponentType
  description : String
  dependencies : Option (List String) := none
  devDependencies : Option (List String) := none
  registryDependencies : Option (List String) := none
  envVars : Option (List (String × String)) := none
  files : Option (List String) := none
  installDir : Option String := none
  tsconfig : Option (List (String × List String)) := none
  docs : Option String := none
  categories : Option (List String) := none
  version : Option String := none
  changelog : Option (List ChangelogEntry) := none
deriving DecidableEq

/-- `buildRegistryItem`: map every declared file to an installed
`{ path: "<typeDir>/<fileName>", content: fileContents[fileName] ?? "", type }`
record and validate the assembled object with `registryItemSchema.parse`.
The manifest's `files!` non-null assertion crashes on an absent `files`
list; `new Date().toISOString()` is threaded in as the explicit clock
reading `now`. -/
def buildRegistryItem (manifest : ComponentManifest)
    (fileContents : List (String × String)) (now : String) :
    Except String RegistryItem :=
  match manifest.files with
  | none => .error "TypeError: manifest.files is undefined"
  | some fileNames =>
    let dir := typeToDir manifest.mtype
    let files : List RegistryFile := fileNames.map (fun fileName =>
      ⟨dir ++ "/" ++ fileName, (mapGet fileContents fileName).getD "",
        manifest.mtype.str⟩)
    registryItemSchemaParse
      { schemaUrl := some "https://kitn.dev/schema/registry-item.json",
        name := manifest.name, itype := manifest.mtype.str,
        description := manifest.description,
        dependencies := manifest.dependencies,
        devDependencies := manifest.devDependencies,
        registryDependencies := manifest.registryDependencies,
        envVars := manifest.envVars, files := files,
        installDir := manifest.installDir, tsconfig := manifest.tsconfig,
        docs := manifest.docs, categories := manifest.categories,
        version := some (manifest.version.getD "1.0.0"),
        updatedAt := some now,
        changelog := manifest.changelog.map (List.map changelogToJson) }

/-- `fs.writeFile` on the output directory, modelled as an association list
from file name to serialized content: overwrite the existing entry or create
the file. -/
def setFile : List (String × String) → String → String → List (String × String)
  | [], k, c => [(k, c)]
  | (k', c') :: rest, k, c =>
    if k' = k then (k, c) :: rest else (k', c') :: setFile rest k c

/-- The per-component write sequence of the build CLI (`serialized` is the
pretty-printed item JSON): always (over)write `<name>.json`, then write
`<name>@<version>.json` only when `access` shows it does not already
exist. -/
def buildComponentWrites (outDir : List (String × String))
    (name version serialized : String) : List (String × String) :=
  let out1 := setFile outDir (name ++ ".json") serialized
  let versionedName := name ++ "@" ++ version ++ ".json"
  if (mapGet out1 versionedName).isSome then out1
  else setFile out1 versionedName serialized

/-- The version-file scan pattern
`^<escaped name>@(.+)\.json$` applied to one directory entry: the capture is
the middle of `<name>@<capture>.json`, required to be non-empty. -/
def matchVersionFile (name f : String) : Option String :=
  if strStarts f (name ++ "@") ∧ strEnds f ".json" ∧
      strLen name + 1 + 5 < strLen f then
    some (strDropRight (strDrop f (strLen name + 1)) 5)
  else none

/-- One numeric-aware collation element: a maximal digit run (as its numeric
value) or a single non-digit character (as its code point). -/
def chunksAux : List Char → Option Nat → List (Nat ⊕ Char)
  | [], some n => [Sum.inl n]
  | [], none => []
  | c :: rest, acc =>
    if c.isDigit then chunksAux rest (some ((acc.getD 0) * 10 + (c.toNat - 48)))
    else
      match acc with
      | some n => Sum.inl n :: Sum.inr c :: chunksAux rest none
      | none => Sum.inr c :: chunksAux rest none

/-- The numeric-aware collation key of a string. -/
def numericKey (s : String) : List (Nat ⊕ Char) :=
  chunksAux s.toList none

/-- Compare two collation elements: digit runs numerically, otherwise by
code point, digit runs before other characters. -/
def cmpElem : Nat ⊕ Char → Nat ⊕ Char → Ordering
  | Sum.inl n, Sum.inl m => compare n m
  | Sum.inl _, Sum.inr _ => Ordering.lt
  | Sum.inr _, Sum.inl _ => Ordering.gt
  | Sum.inr a, Sum.inr b => compare a.toNat b.toNat

/-- Lexicographic comparison of collation keys. -/
def cmpKey : List (Nat ⊕ Char) → List (Nat ⊕ Char) → Ordering
  | [], [] => .eq
  | [], _ :: _ => .lt
  | _ :: _, [] => .gt
  | a :: as, b :: bs =>
    match cmpElem a b with
    | .eq => cmpKey as bs
    | o => o

/-- `a.localeCompare(b, undefined, { numeric: true })` as an `Ordering`:
numeric-aware string comparison. -/
def numericCompare (a b : String) : Ordering :=
  cmpKey (numericKey a) (numericKey b)

/-- Insert into a descending-sorted list: move right while the resident
element is numerically greater. -/
def insertVersionDesc (x : String) : List String → List String
  | [] => [x]
  | y :: ys =>
    if numericCompare y x = Ordering.gt then y :: insertVersionDesc x ys
    else x :: y :: ys

/-- `versions.sort((a, b) => b.localeCompare(a, undefined, { numeric: true }))`:
stable sort descending under numeric-aware comparison, modelled as a stable
insertion sort. -/
def sortVersionsDesc : List String → List String
  | [] => []
  | x :: xs => insertVersionDesc x (sortVersionsDesc xs)

/-- Version-list reconstruction (build CLI, after writing): scan the output
directory entries for `<name>@<version>.json` files and sort the captured
versions descending under numeric-aware comparison. -/
def reconstructVersions (name : String) (dirEntries : List String) : List String :=
  sortVersionsDesc (dirEntries.filterMap (matchVersionFile name))

end BuildRegistry

/-! ### Concrete corpora used to instantiate the theorems -/

open ValidateRegistry BuildRegistry Schema

/-- A scanned corpus with a `tools` file whose relative import crosses into
`agents`, while the resolved target `agents/y.ts` is registered. -/
def crossTypeSt : ScanState Unit :=
  { installedFiles := [("tools/x.ts", "X"), ("agents/y.ts", "Y")],
    manifests := [("X", ⟨"X", "kitn:tool", ["x.ts"], none⟩),
                  ("Y", ⟨"Y", "kitn:agent", ["y.ts"], none⟩)],
    fileContents := [("tools/x.ts", ()), ("agents/y.ts", ())] }

/-- Relative imports extracted from the sources of `crossTypeSt`. -/
def crossTypeRel : Unit → List String := fun _ => ["../agents/y.js"]

/-- Alias imports extracted from the sources of `crossTypeSt`. -/
def crossTypeAlias : Unit → List AliasImport := fun _ => []

/-- A scanned corpus where component `A`'s file holds an alias import of the
unregistered path `tools/missing.ts`, while component `B`'s registered file
is literally named `missing.ts`. -/
def aliasMissSt : ScanState String :=
  { installedFiles := [("agents/a.ts", "A"), ("tools/sub/missing.ts", "B")],
    manifests := [("A", ⟨"A", "kitn:agent", ["a.ts"], none⟩),
                  ("B", ⟨"B", "kitn:tool", ["sub/missing.ts"], none⟩)],
    fileContents := [("agents/a.ts", "srcA"), ("tools/sub/missing.ts", "srcB")] }

/-- Relative imports extracted from the sources of `aliasMissSt`. -/
def aliasMissRel : String → List String := fun _ => []

/-- Alias imports extracted from the sources of `aliasMissSt`: only `A`'s
source holds one. -/
def aliasMissAlias : String → List AliasImport :=
  fun s => if s = "srcA" then [⟨"tools", "missing.js"⟩] else []

/-- A manifest declaring two files. -/
def twoFileManifest : ComponentManifest :=
  { name := "a", mtype := ComponentType.agent, description := "d",
    files := some ["a.ts", "sub/b.ts"] }

/-- On-disk contents for both declared files of `twoFileManifest`. -/
def twoFileContents : List (String × String) :=
  [("a.ts", "one"), ("sub/b.ts", "two")]

/-- A manifest declaring one file for which no content is supplied. -/
def missingContentManifest : ComponentManifest :=
  { name := "m", mtype := ComponentType.tool, description := "d",
    files := some ["m.ts"] }

/-! ### Helper lemmas -/

theorem mapGet_setFile_self (out : List (String × String)) (k c : String) :
    mapGet (BuildRegistry.setFile out k c) k = some c := by
  induction out with
  | nil => simp [BuildRegistry.setFile, mapGet]
  | cons hd tl ih =>
    by_cases h : hd.1 = k <;>
      simp [BuildRegistry.setFile, mapGet, h, ih]

theorem mapGet_setFile_ne (out : List (String × String)) (k k' c : String)
    (h : k' ≠ k) : mapGet (BuildRegistry.setFile out k c) k' = mapGet out k' := by
  have hk : ¬ (k = k') := fun he => h he.symm
  induction out with
  | nil => simp [BuildRegistry.setFile, mapGet, hk]
  | cons hd tl ih =>
    by_cases hh : hd.1 = k
    · subst hh
      simp [BuildRegistry.setFile, mapGet, hk]
    · simp [BuildRegistry.setFile, mapGet, hh, ih]

theorem versioned_ne_latest (name version : String) :
    name ++ "@" ++ version ++ ".json" ≠ name ++ ".json" := by
  intro h
  have hlen := congrArg (fun s => s.toList.length) h
  simp [String.toList, String.data_append] at hlen

theorem buildComponentWrites_versioned_new (out : List (String × String))
    (n v c : String) (h : mapGet out (n ++ "@" ++ v ++ ".json") = none) :
    BuildRegistry.buildComponentWrites out n v c =
      BuildRegistry.setFile (BuildRegistry.setFile out (n ++ ".json") c)
        (n ++ "@" ++ v ++ ".json") c := by
  unfold BuildRegistry.buildComponentWrites
  dsimp only
  rw [mapGet_setFile_ne out (n ++ ".json") (n ++ "@" ++ v ++ ".json") c
      (versioned_ne_latest n v), h]
  simp

theorem buildComponentWrites_versioned_exists (out : List (String × String))
    (n v c c0 : String) (h : mapGet out (n ++ "@" ++ v ++ ".json") = some c0) :
    BuildRegistry.buildComponentWrites out n v c =
      BuildRegistry.setFile out (n ++ ".json") c := by
  unfold BuildRegistry.buildComponentWrites
  dsimp only
  rw [mapGet_setFile_ne out (n ++ ".json") (n ++ "@" ++ v ++ ".json") c
      (versioned_ne_latest n v), h]
  simp

/-! ### Claim theorems -/

/-- C3: once the build has written the version-stamped file
`<name>@<version>.json`, a subsequent build invocation leaves that file's
content unchanged even when the serialized item differs, and only the
`<name>.json` latest file is overwritten. -/
theorem versioned_snapshot_immutable (out : List (String × String))
    (name version c1 c2 : String)
    (h : mapGet out (name ++ "@" ++ version ++ ".json") = none) :
    mapGet (BuildRegistry.buildComponentWrites
        (BuildRegistry.buildComponentWrites out name version c1) name version c2)
      (name ++ "@" ++ version ++ ".json") = some c1 ∧
    mapGet (BuildRegistry.buildComponentWrites
        (BuildRegistry.buildComponentWrites out name version c1) name version c2)
      (name ++ ".json") = some c2 := by
  have hne' := versioned_ne_latest name version
  have e1 := buildComponentWrites_versioned_new out name version c1 h
  have hv1 : mapGet (BuildRegistry.buildComponentWrites out name version c1)
      (name ++ "@" ++ version ++ ".json") = some c1 := by
    rw [e1, mapGet_setFile_self]
  have e2 := buildComponentWrites_versioned_exists
    (BuildRegistry.buildComponentWrites out name version c1) name version c2 c1 hv1
  constructor
  · rw [e2, mapGet_setFile_ne _ _ _ _ hne', hv1]
  · rw [e2, mapGet_setFile_self]

/-- Witness for C3 at a concrete output directory. -/
theorem versioned_snapshot_immutable_witness :
    mapGet ([] : List (String × String)) ("a" ++ "@" ++ "1.0.0" ++ ".json") = none ∧
    (mapGet (BuildRegistry.buildComponentWrites
        (BuildRegistry.buildComponentWrites [] "a" "1.0.0" "one") "a" "1.0.0" "two")
      ("a" ++ "@" ++ "1.0.0" ++ ".json") = some "one" ∧
    mapGet (BuildRegistry.buildComponentWrites
        (BuildRegistry.buildComponentWrites [] "a" "1.0.0" "one") "a" "1.0.0" "two")
      ("a" ++ ".json") = some "two") :=
  ⟨rfl, versioned_snapshot_immutable [] "a" "1.0.0" "one" "two" rfl⟩

/-- C6: the validate run exits with status 1 exactly when at least one error
finding (unresolved reference, policy violation or dangling registry
dependency) was produced, and with status 0 exactly when there are none. -/
theorem validate_exit_status_iff {α : Type} (eR : α → List String)
    (eA : α → List ValidateRegistry.AliasImport) (st : ValidateRegistry.ScanState α) :
    (ValidateRegistry.validateExitCode eR eA st = 1 ↔
      ValidateRegistry.validateFindings eR eA st ≠ []) ∧
    (ValidateRegistry.validateExitCode eR eA st = 0 ↔
      ValidateRegistry.validateFindings eR eA st = []) := by
  unfold ValidateRegistry.validateExitCode
  rcases h : ValidateRegistry.validateFindings eR eA st with _ | ⟨f, rest⟩ <;>
    simp

/-- C7: `registryItemSchema` validation of a minimal agent item without a
`version` field succeeds with `version` defaulted to `"1.0.0"`, and the same
object with type `"invalid:type"` is rejected. -/
theorem registryItemSchema_default_and_reject :
    (Schema.registryItemSchemaParse
        { name := "weather-agent", itype := "kitn:agent",
          description := "Weather lookup agent",
          files := [⟨"agents/weather-agent.ts", "console.log(1)", "kitn:agent"⟩] }).map
      Schema.RegistryItem.version = Except.ok "1.0.0" ∧
    Schema.registryItemSchemaParse
        { name := "test", itype := "invalid:type", description := "test", files := [] }
      = Except.error "invalid enum value for type" :=
  ⟨rfl, rfl⟩

/-- C9: lock-schema validation accepts the empty object and yields the empty
mapping. -/
theorem lockSchema_empty_ok :
    Schema.lockSchemaParse [] = Except.ok [] := rfl

theorem natCompare_swap (a b : Nat) : compare b a = (compare a b).swap := by
  rcases Nat.lt_trichotomy a b with hlt | heq | hgt
  · simp [Nat.compare_eq_lt.2 hlt, Nat.compare_eq_gt.2 hlt, Ordering.swap]
  · subst heq; simp [Nat.compare_eq_eq.2 rfl, Ordering.swap]
  · simp [Nat.compare_eq_gt.2 hgt, Nat.compare_eq_lt.2 hgt, Ordering.swap]

theorem cmpElem_swap (a b : Nat ⊕ Char) :
    BuildRegistry.cmpElem b a = (BuildRegistry.cmpElem a b).swap := by
  cases a <;> cases b
  · exact natCompare_swap _ _
  · rfl
  · rfl
  · exact natCompare_swap _ _

theorem cmpKey_swap (as bs : List (Nat ⊕ Char)) :
    BuildRegistry.cmpKey bs as = (BuildRegistry.cmpKey as bs).swap := by
  induction as generalizing bs with
  | nil =>
    cases bs <;> simp [BuildRegistry.cmpKey, Ordering.swap]
  | cons a as ih =>
    cases bs with
    | nil => simp [BuildRegistry.cmpKey, Ordering.swap]
    | cons b bs =>
      simp only [BuildRegistry.cmpKey]
      rw [cmpElem_swap a b]
      rcases h : BuildRegistry.cmpElem a b <;> simp [h, Ordering.swap, ih]

theorem numericCompare_swap (a b : String) :
    BuildRegistry.numericCompare b a = (BuildRegistry.numericCompare a b).swap :=
  cmpKey_swap _ _

theorem chain_insertVersionDesc (x : String) (l : List String)
    (h : List.Chain' (fun a b => BuildRegistry.numericCompare a b ≠ Ordering.lt) l) :
    List.Chain' (fun a b => BuildRegistry.numericCompare a b ≠ Ordering.lt)
      (BuildRegistry.insertVersionDesc x l) := by
  induction l with
  | nil => simp [BuildRegistry.insertVersionDesc]
  | cons y ys ih =>
    rw [BuildRegistry.insertVersionDesc]
    by_cases hc : BuildRegistry.numericCompare y x = Ordering.gt
    · rw [if_pos hc]
      have hys := h.tail
      have hins := ih hys
      cases ys with
      | nil =>
        simp only [BuildRegistry.insertVersionDesc]
        exact List.chain'_cons.2 ⟨by simp [hc], List.chain'_singleton x⟩
      | cons z zs =>
        rw [BuildRegistry.insertVersionDesc] at hins ⊢
        by_cases hz : BuildRegistry.numericCompare z x = Ordering.gt
        · rw [if_pos hz] at hins ⊢
          exact List.chain'_cons.2 ⟨(List.chain'_cons.1 h).1, hins⟩
        · rw [if_neg hz] at hins ⊢
          exact List.chain'_cons.2 ⟨by simp [hc], hins⟩
    · rw [if_neg hc]
      refine List.chain'_cons.2 ⟨?_, h⟩
      rw [numericCompare_swap]
      rcases ho : BuildRegistry.numericCompare y x <;> simp [Ordering.swap]
      exact hc ho

theorem chain_sortVersionsDesc (l : List String) :
    List.Chain' (fun a b => BuildRegistry.numericCompare a b ≠ Ordering.lt)
      (BuildRegistry.sortVersionsDesc l) := by
  induction l with
  | nil => simp [BuildRegistry.sortVersionsDesc]
  | cons x xs ih =>
    rw [BuildRegistry.sortVersionsDesc]
    exact chain_insertVersionDesc x _ ih

/-- C4: the versions list reconstructed by scanning `<name>@<version>.json`
files is sorted descending under numeric-aware string comparison, and for
stamped versions `1.0.0`, `2.0.0`, `10.0.0` (next to the unstamped latest
file) it is exactly `["10.0.0", "2.0.0", "1.0.0"]`. -/
theorem reconstructVersions_sorted_desc :
    (∀ name dirEntries,
      List.Chain' (fun a b => BuildRegistry.numericCompare a b ≠ Ordering.lt)
        (BuildRegistry.reconstructVersions name dirEntries)) ∧
    BuildRegistry.reconstructVersions "x"
        ["x.json", "x@1.0.0.json", "x@2.0.0.json", "x@10.0.0.json"]
      = ["10.0.0", "2.0.0", "1.0.0"] :=
  ⟨fun _ _ => chain_sortVersionsDesc _, by decide⟩

theorem ctype_str_mem (t : BuildRegistry.ComponentType) :
    t.str ∈ Schema.componentTypes := by
  cases t <;> simp [BuildRegistry.ComponentType.str, Schema.componentTypes]

theorem changetype_str_mem (t : BuildRegistry.ChangeType) :
    t.str ∈ Schema.changelogTypes := by
  cases t <;> simp [BuildRegistry.ChangeType.str, Schema.changelogTypes]

theorem parseRegistryFiles_ok (l : List Schema.RegistryFile)
    (h : ∀ f ∈ l, f.ftype ∈ Schema.componentTypes) :
    Schema.parseRegistryFiles l = Except.ok l := by
  induction l with
  | nil => rfl
  | cons f rest ih =>
    rw [Schema.parseRegistryFiles, if_pos (h f (List.mem_cons_self f rest)),
      ih (fun g hg => h g (List.mem_cons_of_mem f hg))]

theorem parseChangelogEntries_ok (l : List Schema.ChangelogEntryJson)
    (h : ∀ c ∈ l, c.ctype ∈ Schema.changelogTypes) :
    Schema.parseChangelogEntries l = Except.ok l := by
  induction l with
  | nil => rfl
  | cons c rest ih =>
    rw [Schema.parseChangelogEntries, if_pos (h c (List.mem_cons_self c rest)),
      ih (fun g hg => h g (List.mem_cons_of_mem c hg))]

theorem parseChangelogOpt_mapped (cl : Option (List BuildRegistry.ChangelogEntry)) :
    Schema.parseChangelogOpt (cl.map (List.map BuildRegistry.changelogToJson)) =
      Except.ok (cl.map (List.map BuildRegistry.changelogToJson)) := by
  cases cl with
  | none => rfl
  | some entries =>
    have hok := parseChangelogEntries_ok (entries.map BuildRegistry.changelogToJson)
      (by
        intro c hc
        rcases List.mem_map.1 hc with ⟨e, _, he⟩
        rw [← he]
        exact changetype_str_mem e.ctype)
    dsimp only [Option.map]
    rw [Schema.parseChangelogOpt, hok]

theorem buildRegistryItem_ok (m : BuildRegistry.ComponentManifest)
    (fc : List (String × String)) (now : String) (fs : List String)
    (h : m.files = some fs) :
    BuildRegistry.buildRegistryItem m fc now = Except.ok
      { schemaUrl := some "https://kitn.dev/schema/registry-item.json",
        name := m.name, itype := m.mtype.str, description := m.description,
        dependencies := m.dependencies, devDependencies := m.devDependencies,
        registryDependencies := m.registryDependencies, envVars := m.envVars,
        files := fs.map (fun f =>
          ⟨BuildRegistry.typeToDir m.mtype ++ "/" ++ f,
            (mapGet fc f).getD "", m.mtype.str⟩),
        installDir := m.installDir, tsconfig := m.tsconfig, docs := m.docs,
        categories := m.categories, version := m.version.getD "1.0.0",
        updatedAt := some now,
        changelog := m.changelog.map (List.map BuildRegistry.changelogToJson) } := by
  have hfOk := parseRegistryFiles_ok
    (fs.map (fun fileName => (⟨BuildRegistry.typeToDir m.mtype ++ "/" ++ fileName,
      (mapGet fc fileName).getD "", m.mtype.str⟩ : Schema.RegistryFile)))
    (by
      intro g hg
      rcases List.mem_map.1 hg with ⟨f, _, hfe⟩
      rw [← hfe]
      exact ctype_str_mem m.mtype)
  have hclOk := parseChangelogOpt_mapped m.changelog
  rw [BuildRegistry.buildRegistryItem, h]
  dsimp only
  rw [Schema.registryItemSchemaParse]
  dsimp only
  rw [if_pos (ctype_str_mem m.mtype), hfOk, hclOk]
  rfl

/-- C5: for a manifest with a non-empty declared files list and contents for
every declared file, `buildRegistryItem` yields an item with one installed
file record per declared file, the i-th installed path being the type's
canonical directory followed by `/` and the i-th declared relative path. -/
theorem buildRegistryItem_paths (m : BuildRegistry.ComponentManifest)
    (fc : List (String × String)) (now : String) (fs : List String)
    (h1 : m.files = some fs) (h2 : fs ≠ [])
    (h3 : fs.all (fun f => (mapGet fc f).isSome) = true) :
    ∃ item, BuildRegistry.buildRegistryItem m fc now = Except.ok item ∧
      item.files.length = fs.length ∧
      item.files.map Schema.RegistryFile.path =
        fs.map (fun f => BuildRegistry.typeToDir m.mtype ++ "/" ++ f) := by
  refine ⟨_, buildRegistryItem_ok m fc now fs h1, ?_, ?_⟩
  · simp
  · simp

/-- Witness for C5 at a concrete manifest with two declared files. -/
theorem buildRegistryItem_paths_witness :
    twoFileManifest.files = some ["a.ts", "sub/b.ts"] ∧
    ["a.ts", "sub/b.ts"] ≠ [] ∧
    (["a.ts", "sub/b.ts"].all (fun f => (mapGet twoFileContents f).isSome) = true) ∧
    (∃ item,
      BuildRegistry.buildRegistryItem twoFileManifest twoFileContents "2026-01-01"
        = Except.ok item ∧
      item.files.length = ["a.ts", "sub/b.ts"].length ∧
      item.files.map Schema.RegistryFile.path =
        ["a.ts", "sub/b.ts"].map
          (fun f => BuildRegistry.typeToDir twoFileManifest.mtype ++ "/" ++ f)) :=
  ⟨rfl, by decide, by decide,
    buildRegistryItem_paths twoFileManifest twoFileContents "2026-01-01"
      ["a.ts", "sub/b.ts"] rfl (by decide) (by decide)⟩

/-- C10: `buildRegistryItem` does not fail when a declared file has no entry
in the contents map: it succeeds and the file record's content defaults to
the empty string. -/
theorem buildRegistryItem_missing_content (m : BuildRegistry.ComponentManifest)
    (fc : List (String × String)) (now : String) (fs : List String)
    (h : m.files = some fs) :
    ∃ item, BuildRegistry.buildRegistryItem m fc now = Except.ok item ∧
      item.files.map Schema.RegistryFile.content =
        fs.map (fun f => (mapGet fc f).getD "") := by
  refine ⟨_, buildRegistryItem_ok m fc now fs h, ?_⟩
  simp

/-- Witness for C10: a declared file with no supplied content yields a
record with empty content. -/
theorem buildRegistryItem_missing_content_witness :
    missingContentManifest.files = some ["m.ts"] ∧
    mapGet ([] : List (String × String)) "m.ts" = none ∧
    (∃ item,
      BuildRegistry.buildRegistryItem missingContentManifest [] "2026-01-01"
        = Except.ok item ∧
      item.files.map Schema.RegistryFile.content = [""]) := by
  refine ⟨rfl, rfl, ?_⟩
  obtain ⟨item, hok, hcontent⟩ :=
    buildRegistryItem_missing_content missingContentManifest [] "2026-01-01"
      ["m.ts"] rfl
  exact ⟨item, hok, by simpa using hcontent⟩

/-- C1: a relative import in a `.ts` file of the installed-layout map whose
resolved target directory differs from the referencing file's installed
directory and names one of the four canonical type directories is flagged as
a policy violation, with no condition on whether the resolved target is
registered. -/
theorem relative_cross_type_import_flagged {α : Type}
    (eR : α → List String) (eA : α → List ValidateRegistry.AliasImport)
    (st : ValidateRegistry.ScanState α) (p cname : String) (src : α) (imp : String)
    (h1 : (p, cname) ∈ st.installedFiles)
    (h2 : extname p = ".ts")
    (h3 : mapGet st.fileContents p = some src)
    (h4 : imp ∈ eR src)
    (h5 : dirname (ValidateRegistry.resolveImportToFile imp p) ≠ dirname p)
    (h6 : dirname (ValidateRegistry.resolveImportToFile imp p) ∈
      ValidateRegistry.knownAliasTypes) :
    ValidateRegistry.Finding.policyViolation cname p imp ∈
      ValidateRegistry.validateFindings eR eA st := by
  unfold ValidateRegistry.validateFindings
  apply List.mem_append_left
  unfold ValidateRegistry.importFindings
  rw [List.mem_flatMap]
  refine ⟨(p, cname), h1, ?_⟩
  unfold ValidateRegistry.fileFindings
  dsimp only
  rw [if_pos h2, h3]
  apply List.mem_append_right
  rw [List.mem_flatMap]
  refine ⟨imp, h4, ?_⟩
  unfold ValidateRegistry.checkRelativeImport
  dsimp only
  rw [if_pos ⟨h5, h6⟩]
  exact List.mem_singleton.2 rfl

/-- Witness for C1: the cross-type relative import of `crossTypeSt` is
flagged although its resolved target `agents/y.ts` is registered. -/
theorem relative_cross_type_import_flagged_witness :
    ("tools/x.ts", "X") ∈ crossTypeSt.installedFiles ∧
    mapGet crossTypeSt.installedFiles "agents/y.ts" = some "Y" ∧
    ValidateRegistry.Finding.policyViolation "X" "tools/x.ts" "../agents/y.js" ∈
      ValidateRegistry.validateFindings crossTypeRel crossTypeAlias crossTypeSt :=
  ⟨by decide, by decide,
    relative_cross_type_import_flagged crossTypeRel crossTypeAlias crossTypeSt
      "tools/x.ts" "X" () "../agents/y.js" (by decide) (by decide) (by decide)
      (by decide) (by decide) (by decide)⟩

/-- C2 counterexample: in `aliasMissSt` component `A`'s alias import of
`tools/missing.js` is flagged as an unresolved reference, component `B`'s
registered path `tools/sub/missing.ts` has the same final filename
`missing.ts` as the unresolved target, yet no finding in the validator's
output carries a did-you-mean suggestion naming any component — the claim's
suggestion clause fails for alias imports. -/
theorem alias_import_no_suggestion_counterexample :
    ValidateRegistry.Finding.unresolvedAlias "A" "agents/a.ts" "tools"
        "missing.js" "tools/missing.ts" ∈
      ValidateRegistry.validateFindings aliasMissRel aliasMissAlias aliasMissSt ∧
    ("tools/sub/missing.ts", "B") ∈ aliasMissSt.installedFiles ∧
    lastSegment "tools/sub/missing.ts" = lastSegment "tools/missing.ts" ∧
    mapGet aliasMissSt.installedFiles "tools/missing.ts" = none ∧
    (ValidateRegistry.validateFindings aliasMissRel aliasMissAlias aliasMissSt).flatMap
      ValidateRegistry.findingSuggestedComponents = [] := by
  refine ⟨by decide, by decide, by decide, by decide, by decide⟩

/-- C2 (amended): an alias import of a known type whose normalized resolved
target is not a key of the installed-layout map is flagged as an unresolved
reference; no did-you-mean suggestion is attached to alias-import findings
(suggestions exist only for unresolved relative imports). -/
theorem alias_import_unresolved_flagged {α : Type}
    (eR : α → List String) (eA : α → List ValidateRegistry.AliasImport)
    (st : ValidateRegistry.ScanState α) (p cname : String) (src : α)
    (imp : ValidateRegistry.AliasImport)
    (h1 : (p, cname) ∈ st.installedFiles)
    (h2 : extname p = ".ts")
    (h3 : mapGet st.fileContents p = some src)
    (h4 : imp ∈ eA src)
    (h5 : mapGet st.installedFiles (jsToTs (imp.ty ++ "/" ++ imp.path)) = none) :
    ValidateRegistry.Finding.unresolvedAlias cname p imp.ty imp.path
        (jsToTs (imp.ty ++ "/" ++ imp.path)) ∈
      ValidateRegistry.validateFindings eR eA st := by
  unfold ValidateRegistry.validateFindings
  apply List.mem_append_left
  unfold ValidateRegistry.importFindings
  rw [List.mem_flatMap]
  refine ⟨(p, cname), h1, ?_⟩
  unfold ValidateRegistry.fileFindings
  dsimp only
  rw [if_pos h2, h3]
  apply List.mem_append_left
  rw [List.mem_flatMap]
  refine ⟨imp, h4, ?_⟩
  unfold ValidateRegistry.checkAliasImport
  dsimp only
  rw [h5]
  exact List.mem_singleton.2 rfl

/-- Witness for C2's amended theorem at the corpus of the counterexample. -/
theorem alias_import_unresolved_flagged_witness :
    mapGet aliasMissSt.installedFiles
        (jsToTs ("tools" ++ "/" ++ "missing.js")) = none ∧
    ValidateRegistry.Finding.unresolvedAlias "A" "agents/a.ts" "tools"
        "missing.js" (jsToTs ("tools" ++ "/" ++ "missing.js")) ∈
      ValidateRegistry.validateFindings aliasMissRel aliasMissAlias aliasMissSt :=
  ⟨by decide,
    alias_import_unresolved_flagged aliasMissRel aliasMissAlias aliasMissSt
      "agents/a.ts" "A" "srcA" ⟨"tools", "missing.js"⟩ (by decide) (by decide)
      (by decide) (by decide) (by decide)⟩

theorem readComponentFiles_fst {α : Type} (fs : ValidateRegistry.FS α)
    (componentDir installDir cname : String) (files : List String)
    (st : ValidateRegistry.ScanState α) :
    (ValidateRegistry.readComponentFiles fs componentDir installDir cname files st).1
      = fs := by
  induction files generalizing st with
  | nil => rfl
  | cons f rest ih =>
    rw [ValidateRegistry.readComponentFiles]
    rcases h : mapGet fs.files (componentDir ++ "/" ++ f) with _ | src <;>
      simp [ValidateRegistry.FS.readFileF, h, ih]

theorem scanEntries_fst {α : Type} (parseManifest : α → Option ValidateRegistry.ScanManifest)
    (fs : ValidateRegistry.FS α) (dir : String) (entries : List String)
    (st : ValidateRegistry.ScanState α) :
    (ValidateRegistry.scanEntries parseManifest fs dir entries st).1 = fs := by
  induction entries generalizing st with
  | nil => rfl
  | cons entry rest ih =>
    rw [ValidateRegistry.scanEntries]
    rcases h : mapGet fs.files (dir ++ "/" ++ entry ++ "/" ++ "manifest.json")
      with _ | raw
    · simp [ValidateRegistry.FS.readFileF, h, ih]
    · rcases hp : parseManifest raw with _ | manifest
      · simp [ValidateRegistry.FS.readFileF, h, hp]
      · have hrc := readComponentFiles_fst fs (dir ++ "/" ++ entry)
          ((mapGet ValidateRegistry.typeToDir manifest.mtype).getD "undefined")
          manifest.name manifest.files
          { st with manifests := mapSet st.manifests manifest.name manifest }
        rcases hr : ValidateRegistry.readComponentFiles fs (dir ++ "/" ++ entry)
            ((mapGet ValidateRegistry.typeToDir manifest.mtype).getD "undefined")
            manifest.name manifest.files
            { st with manifests := mapSet st.manifests manifest.name manifest }
          with ⟨fs2, r⟩
        have hfs2 : fs2 = fs := by rw [hr] at hrc; exact hrc
        subst hfs2
        rcases r with _ | st2 <;>
          simp [ValidateRegistry.FS.readFileF, h, hp, hr, ih]

theorem scanTypeDirs_fst {α : Type} (parseManifest : α → Option ValidateRegistry.ScanManifest)
    (fs : ValidateRegistry.FS α) (componentsDir : String) (typeDirs : List String)
    (st : ValidateRegistry.ScanState α) :
    (ValidateRegistry.scanTypeDirs parseManifest fs componentsDir typeDirs st).1 = fs := by
  induction typeDirs generalizing st with
  | nil => rfl
  | cons typeDir rest ih =>
    rw [ValidateRegistry.scanTypeDirs]
    rcases h : mapGet fs.dirs (componentsDir ++ "/" ++ typeDir) with _ | entries
    · simp [ValidateRegistry.FS.readdirF, h, ih]
    · have hsc := scanEntries_fst parseManifest fs (componentsDir ++ "/" ++ typeDir)
        entries st
      rcases hr : ValidateRegistry.scanEntries parseManifest fs
          (componentsDir ++ "/" ++ typeDir) entries st with ⟨fs2, r⟩
      have hfs2 : fs2 = fs := by rw [hr] at hsc; exact hsc
      subst hfs2
      rcases r with _ | st1 <;>
        simp [ValidateRegistry.FS.readdirF, h, hr, ih]

/-- C8: a validation run performs only `readdir`/`readFile` operations — for
every file-system state, manifest parser and import extractors, the
file-system state after the run equals the state before it, whether or not
the run produced findings or was rejected. -/
theorem validate_leaves_fs_unchanged {α : Type}
    (parseManifest : α → Option ValidateRegistry.ScanManifest)
    (eR : α → List String) (eA : α → List ValidateRegistry.AliasImport)
    (fs : ValidateRegistry.FS α) (componentsDir : String) :
    (ValidateRegistry.runValidate parseManifest eR eA fs componentsDir).1 = fs := by
  unfold ValidateRegistry.runValidate
  have hsc := scanTypeDirs_fst parseManifest fs componentsDir
    ["agents", "tools", "skills", "storage"] {}
  rcases hr : ValidateRegistry.scanTypeDirs parseManifest fs componentsDir
      ["agents", "tools", "skills", "storage"] {} with ⟨fs1, r⟩
  have hfs1 : fs1 = fs := by rw [hr] at hsc; exact hsc
  subst hfs1
  rcases r with _ | st <;> simp [hr]

end RegistryTemplate
